import Mathlib

/-!
Verification of the collision/breakup core of an Asteroids-style browser game.

The embedding models JS numbers as exact rationals (`ℚ`).  The ambient
`Math.random()` generator is modelled as a stream `g : ℕ → ℚ` of draws in
`[0,1)` together with an explicit index of the next draw; every call site
consumes one draw and advances the index.  `Math.PI`, `Math.cos` and
`Math.sin` (float approximations of the real functions in JS) are abstracted
as an explicit environment of rational functions.  JS object identity, used
by the collision resolver's `Set`s of object references, is modelled by a
numeric `id` field; `new` allocations draw fresh ids from an explicit
counter.  JS `Set`s become insertion-ordered lists of ids (the code checks
membership before every insertion, so the lists stay duplicate-free).
`throw` becomes `Except String`.
-/

namespace Astroids

/-- Stream of `Math.random()` draws; each call site consumes one draw. -/
abbrev RandStream := ℕ → ℚ

/-- The ambient math library (`Math.PI`, `Math.cos`, `Math.sin`)
abstracted as an environment. -/
structure MathEnv where
  pi : ℚ
  cos : ℚ → ℚ
  sin : ℚ → ℚ

/-- The uniform circle contract `{x, y, radius}` required by the overlap
test (collision.js). -/
structure Circle where
  x : ℚ
  y : ℚ
  radius : ℚ
  deriving Repr, DecidableEq

/-- `circlesOverlap` from collision.js: squared-distance comparison against
the squared sum of radii, tangency inclusive. -/
def circlesOverlap (a b : Circle) : Bool :=
  let dx := a.x - b.x
  let dy := a.y - b.y
  let distSq := dx * dx + dy * dy
  let radiiSum := a.radius + b.radius
  decide (distSq ≤ radiiSum * radiiSum)

/-- `ASTEROID_SCORES` from asteroid.js: `{ 1: 20, 2: 50, 3: 100 }`.
Off-key lookups (undefined in JS) are unreachable in the verified paths;
the default value is arbitrary. -/
def ASTEROID_SCORES : ℤ → ℚ := fun t =>
  if t = 1 then 20 else if t = 2 then 50 else if t = 3 then 100 else 0

/-- `TIER_RADII` from asteroid.js: `{ 1: 40, 2: 20, 3: 10 }`. -/
def TIER_RADII : ℤ → ℚ := fun t =>
  if t = 1 then 40 else if t = 2 then 20 else if t = 3 then 10 else 0

/-- `SHAPE_VERTEX_COUNT` from asteroid.js. -/
def SHAPE_VERTEX_COUNT : ℕ := 10

/-- `SHAPE_JITTER` from asteroid.js. -/
def SHAPE_JITTER : ℚ := 0.3

/-- `MIN_ANGULAR_VELOCITY` from asteroid.js. -/
def MIN_ANGULAR_VELOCITY : ℚ := -2

/-- `MAX_ANGULAR_VELOCITY` from asteroid.js. -/
def MAX_ANGULAR_VELOCITY : ℚ := 2

/-- `generateAsteroidShape` from asteroid.js.  Ten vertices spaced
`2π/10` apart; vertex `k` consumes draw `i + k`.  Returns the vertex list
and the index of the next unconsumed draw. -/
def generateAsteroidShape (env : MathEnv) (g : RandStream) (radius : ℚ)
    (i : ℕ) : List (ℚ × ℚ) × ℕ :=
  let angleStep := env.pi * 2 / (SHAPE_VERTEX_COUNT : ℚ)
  ((List.range SHAPE_VERTEX_COUNT).map fun (k : ℕ) =>
    let angle := (k : ℚ) * angleStep
    let jitter := 1 - SHAPE_JITTER + g (i + k) * (SHAPE_JITTER * 2)
    let r := radius * jitter
    (env.cos angle * r, env.sin angle * r),
   i + SHAPE_VERTEX_COUNT)

/-- `randomAngularVelocity` from asteroid.js. -/
def randomAngularVelocity (g : RandStream) (i : ℕ) : ℚ × ℕ :=
  (MIN_ANGULAR_VELOCITY + g i * (MAX_ANGULAR_VELOCITY - MIN_ANGULAR_VELOCITY),
   i + 1)

/-- The `Asteroid` entity (asteroid.js).  `tier` is modelled as an integer:
both the class's declared type (`@type {1|2|3}`) and the spec's data model
(`tier: integer in {1,2,3}`) declare it integral.  `id` models JS object
identity. -/
structure Asteroid where
  id : ℕ
  tier : ℤ
  radius : ℚ
  x : ℚ
  y : ℚ
  vx : ℚ
  vy : ℚ
  rotation : ℚ
  angularVelocity : ℚ
  shape : List (ℚ × ℚ)
  deriving Repr, DecidableEq

/-- The options object taken by the `Asteroid` constructor; `rotation`,
`angularVelocity` and `shape` may be omitted (JS `undefined`). -/
structure AsteroidOpts where
  tier : ℤ
  x : ℚ
  y : ℚ
  vx : ℚ
  vy : ℚ
  rotation : Option ℚ := none
  angularVelocity : Option ℚ := none
  shape : Option (List (ℚ × ℚ)) := none

/-- The `Asteroid` constructor (asteroid.js).  Throws `RangeError` when
`tier < 1 || tier > 3`; otherwise initialises every field in source order,
drawing angular velocity and shape from the random stream when not
supplied.  Returns the object, the next draw index and the next fresh id. -/
def Asteroid.new (env : MathEnv) (g : RandStream) (opts : AsteroidOpts)
    (i : ℕ) (nid : ℕ) : Except String (Asteroid × ℕ × ℕ) :=
  if opts.tier < 1 ∨ 3 < opts.tier then
    .error "Invalid asteroid tier (must be 1-3)"
  else
    let radius := TIER_RADII opts.tier
    let av := match opts.angularVelocity with
      | some v => (v, i)
      | none => randomAngularVelocity g i
    let sh := match opts.shape with
      | some v => (v, av.2)
      | none => generateAsteroidShape env g radius av.2
    .ok ({ id := nid, tier := opts.tier, radius := radius,
           x := opts.x, y := opts.y, vx := opts.vx, vy := opts.vy,
           rotation := opts.rotation.getD 0,
           angularVelocity := av.1, shape := sh.1 }, sh.2, nid + 1)

/-- `randomDeflectionAngle` from asteroid.js: a uniform draw over
`[0, 30)` mapped piecewise onto `[-30, -15) ∪ [15, 30)`. -/
def randomDeflectionAngle (g : RandStream) (i : ℕ) : ℚ × ℕ :=
  let t := g i * 30
  (if t < 15 then -30 + t else 15 + (t - 15), i + 1)

/-- One iteration of the child-spawning loop in `Asteroid.breakup`
(asteroid.js): position offsets, deflection angle, speed scale, rotated and
scaled velocity, then construction of the child (which draws its own
angular velocity and shape). -/
def Asteroid.breakupChild (env : MathEnv) (g : RandStream) (a : Asteroid)
    (childTier : ℤ) (i nid : ℕ) : Except String (Asteroid × ℕ × ℕ) :=
  let offsetX := (g i * 2 - 1) * a.radius * 0.3
  let offsetY := (g (i + 1) * 2 - 1) * a.radius * 0.3
  let ang := randomDeflectionAngle g (i + 2)
  let angleRad := ang.1 * env.pi / 180
  let speedScale := 1.2 + g ang.2 * 0.3
  let c := env.cos angleRad
  let s := env.sin angleRad
  let childVx := (a.vx * c - a.vy * s) * speedScale
  let childVy := (a.vx * s + a.vy * c) * speedScale
  Asteroid.new env g
    { tier := childTier, x := a.x + offsetX, y := a.y + offsetY,
      vx := childVx, vy := childVy } (ang.2 + 1) nid

/-- `Asteroid.breakup` (asteroid.js).  Tier 3 yields no children; otherwise
the constant-2 loop is unrolled into two sequenced `breakupChild` calls.
The first component of the result is the entity's own state after the call:
the method body contains no assignment to `this`, so it is the input
entity unchanged. -/
def Asteroid.breakup (env : MathEnv) (g : RandStream) (a : Asteroid)
    (i nid : ℕ) : Except String (Asteroid × List Asteroid × ℚ × ℕ × ℕ) :=
  let score := ASTEROID_SCORES a.tier
  if a.tier = 3 then
    .ok (a, [], score, i, nid)
  else
    let childTier := a.tier + 1
    match Asteroid.breakupChild env g a childTier i nid with
    | .error e => .error e
    | .ok (c₁, i₁, nid₁) =>
      match Asteroid.breakupChild env g a childTier i₁ nid₁ with
      | .error e => .error e
      | .ok (c₂, i₂, nid₂) => .ok (a, [c₁, c₂], score, i₂, nid₂)

/-- The `Bullet` entity.  bullet.js itself is not among the provided source
files; the collision code reads only the circle contract fields
(`x`, `y`, `radius`) plus object identity, so only those are modelled. -/
structure Bullet where
  id : ℕ
  x : ℚ
  y : ℚ
  radius : ℚ
  deriving Repr, DecidableEq

/-- View a bullet through the circle contract used by `circlesOverlap`. -/
def Bullet.toCircle (b : Bullet) : Circle :=
  { x := b.x, y := b.y, radius := b.radius }

/-- View an asteroid through the circle contract used by `circlesOverlap`. -/
def Asteroid.toCircle (a : Asteroid) : Circle :=
  { x := a.x, y := a.y, radius := a.radius }

/-- The result record of `processBulletAsteroidCollisions` (main.js).
The JS `Set`s of object references become insertion-ordered lists of ids;
every insertion is guarded by a membership check, so they are
duplicate-free. -/
structure CollisionResult where
  bulletsToRemove : List ℕ
  asteroidsToRemove : List ℕ
  newAsteroids : List Asteroid
  scoreDelta : ℚ
  deriving Repr, DecidableEq

/-- The inner `for (let i = 0; i < asteroidCount; i++)` loop of
`processBulletAsteroidCollisions` (main.js) for one bullet: skip asteroids
already marked destroyed, and on the first overlap mark the bullet
consumed, mark the asteroid destroyed, break it up, accumulate score,
collect its children and stop scanning.  The state threads the result
record, the draw index and the fresh-id counter.  (The source captures
`asteroids.length` before the loop; the array is never modified during the
call, so the loop ranges over exactly the input list.) -/
def scanAsteroids (env : MathEnv) (g : RandStream) (b : Bullet) :
    List Asteroid → CollisionResult × ℕ × ℕ →
    Except String (CollisionResult × ℕ × ℕ)
  | [], st => .ok st
  | a :: rest, st =>
    if a.id ∈ st.1.asteroidsToRemove then
      scanAsteroids env g b rest st
    else if circlesOverlap b.toCircle a.toCircle then
      match Asteroid.breakup env g a st.2.1 st.2.2 with
      | .error e => .error e
      | .ok (_, children, score, i', nid') =>
        .ok ({ bulletsToRemove := st.1.bulletsToRemove ++ [b.id],
               asteroidsToRemove := st.1.asteroidsToRemove ++ [a.id],
               newAsteroids := st.1.newAsteroids ++ children,
               scoreDelta := st.1.scoreDelta + score }, i', nid')
    else
      scanAsteroids env g b rest st

/-- The outer `for (const bullet of bullets)` loop of
`processBulletAsteroidCollisions` (main.js): a bullet already marked
consumed (possible only via duplicate references in the input) is
skipped. -/
def processBullets (env : MathEnv) (g : RandStream)
    (asteroids : List Asteroid) :
    List Bullet → CollisionResult × ℕ × ℕ →
    Except String (CollisionResult × ℕ × ℕ)
  | [], st => .ok st
  | b :: rest, st =>
    if b.id ∈ st.1.bulletsToRemove then
      processBullets env g asteroids rest st
    else
      match scanAsteroids env g b asteroids st with
      | .error e => .error e
      | .ok st' => processBullets env g asteroids rest st'

/-- `processBulletAsteroidCollisions` (main.js): empty removal sets, no
children and score 0 initially, then the bullet loop. -/
def processBulletAsteroidCollisions (env : MathEnv) (g : RandStream)
    (bullets : List Bullet) (asteroids : List Asteroid) (i nid : ℕ) :
    Except String (CollisionResult × ℕ × ℕ) :=
  processBullets env g asteroids bullets
    ({ bulletsToRemove := [], asteroidsToRemove := [],
       newAsteroids := [], scoreDelta := 0 }, i, nid)

/-- The record returned by `applyCollisionResults` (main.js). -/
structure ApplyResult where
  bullets : List Bullet
  asteroids : List Asteroid
  scoreDelta : ℚ
  deriving Repr, DecidableEq

/-- `applyCollisionResults` (main.js): filter out consumed bullets, filter
out destroyed asteroids, append spawned children, pass `scoreDelta`
through. -/
def applyCollisionResults (bullets : List Bullet) (asteroids : List Asteroid)
    (result : CollisionResult) : ApplyResult :=
  let survivingBullets :=
    bullets.filter fun b => decide (b.id ∉ result.bulletsToRemove)
  let survivingAsteroids :=
    asteroids.filter fun a => decide (a.id ∉ result.asteroidsToRemove)
  { bullets := survivingBullets,
    asteroids := survivingAsteroids ++ result.newAsteroids,
    scoreDelta := result.scoreDelta }

/-- Modelled from the spec (§4.3, algorithm steps 2–4), for comparison
with `processBulletAsteroidCollisions`: one projectile step — a projectile
already marked consumed is skipped; otherwise it is paired with the *first*
entity in input order that is not already marked destroyed and overlaps
it, which is destroyed and broken up, the projectile being consumed. -/
def resolveStepSpec (env : MathEnv) (g : RandStream)
    (asteroids : List Asteroid) (st : CollisionResult × ℕ × ℕ)
    (b : Bullet) : Except String (CollisionResult × ℕ × ℕ) :=
  if b.id ∈ st.1.bulletsToRemove then .ok st
  else
    match asteroids.find? (fun a =>
        decide (a.id ∉ st.1.asteroidsToRemove) &&
        circlesOverlap b.toCircle a.toCircle) with
    | none => .ok st
    | some a =>
      match Asteroid.breakup env g a st.2.1 st.2.2 with
      | .error e => .error e
      | .ok (_, children, score, i', nid') =>
        .ok ({ bulletsToRemove := st.1.bulletsToRemove ++ [b.id],
               asteroidsToRemove := st.1.asteroidsToRemove ++ [a.id],
               newAsteroids := st.1.newAsteroids ++ children,
               scoreDelta := st.1.scoreDelta + score }, i', nid')

/-- Modelled from the spec (§4.3): visit projectiles in input order,
folding the per-projectile step over the initial empty result. -/
def resolveSpec (env : MathEnv) (g : RandStream) (bullets : List Bullet)
    (asteroids : List Asteroid) (i nid : ℕ) :
    Except String (CollisionResult × ℕ × ℕ) :=
  bullets.foldlM (resolveStepSpec env g asteroids)
    ({ bulletsToRemove := [], asteroidsToRemove := [],
       newAsteroids := [], scoreDelta := 0 }, i, nid)

/-! ### Witness inputs: a concrete math environment, random stream and
entities used to instantiate the theorems below. -/

/-- A concrete math environment whose `cos`/`sin` satisfy the Pythagorean
identity. -/
def wEnv : MathEnv := ⟨0, fun _ => 1, fun _ => 0⟩

/-- A concrete random stream, constantly 0 (a legal `Math.random` value). -/
def wG : RandStream := fun _ => 0

/-- A concrete tier-1 asteroid. -/
def wAst1 : Asteroid := ⟨1, 1, 40, 0, 0, 3, 4, 0, 0, []⟩

/-- A concrete tier-2 asteroid. -/
def wAst2 : Asteroid := ⟨2, 2, 20, 0, 0, 3, 4, 0, 0, []⟩

/-- A concrete tier-3 asteroid. -/
def wAst3 : Asteroid := ⟨3, 3, 10, 5, 5, 1, 2, 0, 0, []⟩

/-- A concrete bullet co-located with `wAst3`. -/
def wBul : Bullet := ⟨100, 5, 5, 3⟩

/-- The empty collision result. -/
def wEmptyRes : CollisionResult := ⟨[], [], [], 0⟩

/-! ### Helper lemmas -/

/-- Eliminate a successful `breakupChild` call: the child takes the next
fresh id and the requested tier, and its velocity is the parent's velocity
rotated by some angle and scaled by `1.2 + 0.3·draw`. -/
lemma breakupChild_elim (env : MathEnv) (g : RandStream) (a : Asteroid)
    (t : ℤ) (i nid : ℕ) (c : Asteroid) (i' nid' : ℕ)
    (h : Asteroid.breakupChild env g a t i nid = .ok (c, i', nid')) :
    c.id = nid ∧ c.tier = t ∧ nid' = nid + 1 ∧
    ∃ θ : ℚ, ∃ n : ℕ,
      c.vx = (a.vx * env.cos θ - a.vy * env.sin θ) * (1.2 + g n * 0.3) ∧
      c.vy = (a.vx * env.sin θ + a.vy * env.cos θ) * (1.2 + g n * 0.3) := by
  unfold Asteroid.breakupChild Asteroid.new at h
  dsimp only at h
  split at h
  · simp at h
  · simp only [Except.ok.injEq, Prod.mk.injEq] at h
    obtain ⟨hc, _, hnid⟩ := h
    subst hc
    exact ⟨rfl, rfl, hnid.symm, _, _, rfl, rfl⟩

/-- A `breakupChild` call with a valid child tier succeeds. -/
lemma breakupChild_isOk (env : MathEnv) (g : RandStream) (a : Asteroid)
    (t : ℤ) (i nid : ℕ) (h1 : 1 ≤ t) (h3 : t ≤ 3) :
    ∃ c i', Asteroid.breakupChild env g a t i nid = .ok (c, i', nid + 1) := by
  unfold Asteroid.breakupChild Asteroid.new
  dsimp only
  rw [if_neg (by omega)]
  exact ⟨_, _, rfl⟩

/-- Case analysis on a successful `breakup` call: the reported parent state
is the input entity, the score is the tier's table entry, and the children
are empty (tier 3) or exactly the two sequenced `breakupChild` results. -/
lemma breakup_cases (env : MathEnv) (g : RandStream) (a : Asteroid)
    (i nid : ℕ) (p : Asteroid) (children : List Asteroid) (score : ℚ)
    (i' nid' : ℕ)
    (h : Asteroid.breakup env g a i nid = .ok (p, children, score, i', nid')) :
    p = a ∧ score = ASTEROID_SCORES a.tier ∧
    ((a.tier = 3 ∧ children = [] ∧ i' = i ∧ nid' = nid) ∨
     (a.tier ≠ 3 ∧ ∃ c₁ c₂ i₁ nid₁,
        Asteroid.breakupChild env g a (a.tier + 1) i nid = .ok (c₁, i₁, nid₁) ∧
        Asteroid.breakupChild env g a (a.tier + 1) i₁ nid₁ = .ok (c₂, i', nid') ∧
        children = [c₁, c₂])) := by
  unfold Asteroid.breakup at h
  dsimp only at h
  split at h
  · simp only [Except.ok.injEq, Prod.mk.injEq] at h
    obtain ⟨hp, hch, hsc, hi, hnid⟩ := h
    exact ⟨hp.symm, hsc.symm, Or.inl ⟨by assumption, hch.symm, hi.symm, hnid.symm⟩⟩
  · rename_i htier
    rcases h1 : Asteroid.breakupChild env g a (a.tier + 1) i nid with e | ⟨c₁, i₁, nid₁⟩
    · rw [h1] at h; simp at h
    · rw [h1] at h
      dsimp only at h
      rcases h2 : Asteroid.breakupChild env g a (a.tier + 1) i₁ nid₁ with e | ⟨c₂, i₂, nid₂⟩
      · rw [h2] at h; simp at h
      · rw [h2] at h
        dsimp only at h
        simp only [Except.ok.injEq, Prod.mk.injEq] at h
        obtain ⟨hp, hch, hsc, hi, hnid⟩ := h
        subst hi; subst hnid
        exact ⟨hp.symm, hsc.symm,
          Or.inr ⟨htier, c₁, c₂, i₁, nid₁, rfl, h2, hch.symm⟩⟩

/-- A `breakup` call on an entity of tier 1 or 2 succeeds: exactly two
children, each of the parent's tier plus one. -/
lemma breakup_ok_of_small_tier (env : MathEnv) (g : RandStream)
    (a : Asteroid) (i nid : ℕ) (h : a.tier = 1 ∨ a.tier = 2) :
    ∃ c₁ c₂ i' nid',
      Asteroid.breakup env g a i nid =
        .ok (a, [c₁, c₂], ASTEROID_SCORES a.tier, i', nid') ∧
      c₁.tier = a.tier + 1 ∧ c₂.tier = a.tier + 1 := by
  obtain ⟨c₁, i₁, hc₁⟩ :=
    breakupChild_isOk env g a (a.tier + 1) i nid (by omega) (by omega)
  obtain ⟨c₂, i₂, hc₂⟩ :=
    breakupChild_isOk env g a (a.tier + 1) i₁ (nid + 1) (by omega) (by omega)
  refine ⟨c₁, c₂, i₂, nid + 1 + 1, ?_, ?_, ?_⟩
  · unfold Asteroid.breakup
    dsimp only
    rw [if_neg (by omega), hc₁]
    dsimp only
    rw [hc₂]
  · exact (breakupChild_elim env g a _ i nid c₁ i₁ (nid + 1) hc₁).2.1
  · exact (breakupChild_elim env g a _ i₁ (nid + 1) c₂ i₂ (nid + 1 + 1) hc₂).2.1

/-- The squared speed of a `breakupChild` result is the parent's squared
speed times the square of the drawn scale, provided `cos`/`sin` satisfy the
Pythagorean identity; the scale lies in `[1.2, 1.5)` when the draws lie in
`[0, 1)`. -/
lemma breakupChild_speed (env : MathEnv) (g : RandStream) (a : Asteroid)
    (t : ℤ) (i nid : ℕ) (c : Asteroid) (i' nid' : ℕ)
    (htrig : ∀ θ : ℚ, env.cos θ ^ 2 + env.sin θ ^ 2 = 1)
    (hg : ∀ n : ℕ, 0 ≤ g n ∧ g n < 1)
    (h : Asteroid.breakupChild env g a t i nid = .ok (c, i', nid')) :
    ∃ s : ℚ, 1.2 ≤ s ∧ s < 1.5 ∧
      c.vx ^ 2 + c.vy ^ 2 = s ^ 2 * (a.vx ^ 2 + a.vy ^ 2) := by
  obtain ⟨-, -, -, θ, n, hvx, hvy⟩ :=
    breakupChild_elim env g a t i nid c i' nid' h
  refine ⟨1.2 + g n * 0.3, ?_, ?_, ?_⟩
  · have := (hg n).1; linarith
  · have := (hg n).2; linarith
  · rw [hvx, hvy]
    have hcs := htrig θ
    linear_combination
      ((1.2 + g n * 0.3) ^ 2 * (a.vx ^ 2 + a.vy ^ 2)) * hcs

/-- One step of the bullet loop, characterised through `List.find?`: the
bullet pairs with the first not-yet-destroyed overlapping asteroid. -/
lemma scanAsteroids_eq_find (env : MathEnv) (g : RandStream) (b : Bullet) :
    ∀ (rest : List Asteroid) (st : CollisionResult × ℕ × ℕ),
    scanAsteroids env g b rest st =
      match rest.find? (fun a =>
          decide (a.id ∉ st.1.asteroidsToRemove) &&
          circlesOverlap b.toCircle a.toCircle) with
      | none => .ok st
      | some a =>
        match Asteroid.breakup env g a st.2.1 st.2.2 with
        | .error e => .error e
        | .ok (_, children, score, i', nid') =>
          .ok ({ bulletsToRemove := st.1.bulletsToRemove ++ [b.id],
                 asteroidsToRemove := st.1.asteroidsToRemove ++ [a.id],
                 newAsteroids := st.1.newAsteroids ++ children,
                 scoreDelta := st.1.scoreDelta + score }, i', nid') := by
  intro rest st
  induction rest with
  | nil => rfl
  | cons a rest ih =>
    by_cases hmem : a.id ∈ st.1.asteroidsToRemove
    · have hpred : (decide (a.id ∉ st.1.asteroidsToRemove) &&
          circlesOverlap b.toCircle a.toCircle) = false := by
        simp [hmem]
      have hstep : List.find? (fun x =>
          decide (x.id ∉ st.1.asteroidsToRemove) &&
          circlesOverlap b.toCircle x.toCircle) (a :: rest) =
          List.find? (fun x =>
          decide (x.id ∉ st.1.asteroidsToRemove) &&
          circlesOverlap b.toCircle x.toCircle) rest := by
        simp only [List.find?_cons, hpred]
      simp only [scanAsteroids, if_pos hmem]
      rw [ih, hstep]
    · by_cases hov : circlesOverlap b.toCircle a.toCircle = true
      · have hpred : (decide (a.id ∉ st.1.asteroidsToRemove) &&
            circlesOverlap b.toCircle a.toCircle) = true := by
          simp [hmem, hov]
        have hstep : List.find? (fun x =>
            decide (x.id ∉ st.1.asteroidsToRemove) &&
            circlesOverlap b.toCircle x.toCircle) (a :: rest) = some a := by
          simp only [List.find?_cons, hpred]
        simp only [scanAsteroids, if_neg hmem, if_pos hov]
        rw [hstep]
      · have hpred : (decide (a.id ∉ st.1.asteroidsToRemove) &&
            circlesOverlap b.toCircle a.toCircle) = false := by
          simp [hov]
        have hstep : List.find? (fun x =>
            decide (x.id ∉ st.1.asteroidsToRemove) &&
            circlesOverlap b.toCircle x.toCircle) (a :: rest) =
            List.find? (fun x =>
            decide (x.id ∉ st.1.asteroidsToRemove) &&
            circlesOverlap b.toCircle x.toCircle) rest := by
          simp only [List.find?_cons, hpred]
        simp only [scanAsteroids, if_neg hmem, if_neg hov]
        rw [ih, hstep]

/-- The spec-modelled per-projectile step agrees with the source's inner
asteroid scan on every state. -/
lemma resolveStepSpec_eq_scan (env : MathEnv) (g : RandStream)
    (asteroids : List Asteroid) (st : CollisionResult × ℕ × ℕ) (b : Bullet) :
    resolveStepSpec env g asteroids st b =
      if b.id ∈ st.1.bulletsToRemove then .ok st
      else scanAsteroids env g b asteroids st := by
  unfold resolveStepSpec
  rw [scanAsteroids_eq_find]

/-- The bullet loop is the monadic fold of the spec-modelled per-projectile
step over the input order. -/
lemma processBullets_eq_foldlM (env : MathEnv) (g : RandStream)
    (asteroids : List Asteroid) :
    ∀ (bs : List Bullet) (st : CollisionResult × ℕ × ℕ),
    processBullets env g asteroids bs st =
      List.foldlM (resolveStepSpec env g asteroids) st bs := by
  intro bs
  induction bs with
  | nil => intro st; rfl
  | cons b rest ih =>
    intro st
    rw [List.foldlM_cons, resolveStepSpec_eq_scan]
    simp only [processBullets]
    by_cases hb : b.id ∈ st.1.bulletsToRemove
    · simp only [if_pos hb]
      rw [ih]
      rfl
    · simp only [if_neg hb]
      rcases hscan : scanAsteroids env g b asteroids st with e | st'
      · rfl
      · dsimp only
        rw [ih]
        rfl

/-- A successful `breakup` never lowers the fresh-id counter, and every
child's id was allocated at or above the counter it was given. -/
lemma breakup_nid_mono (env : MathEnv) (g : RandStream) (a : Asteroid)
    (i nid : ℕ) (p : Asteroid) (children : List Asteroid) (score : ℚ)
    (i' nid' : ℕ)
    (h : Asteroid.breakup env g a i nid = .ok (p, children, score, i', nid')) :
    nid ≤ nid' ∧ ∀ c ∈ children, nid ≤ c.id ∧ c.id < nid' := by
  obtain ⟨-, -, hcase⟩ := breakup_cases env g a i nid p children score i' nid' h
  rcases hcase with ⟨-, hch, -, hnid⟩ | ⟨-, c₁, c₂, i₁, nid₁, hc₁, hc₂, hch⟩
  · subst hch; subst hnid
    exact ⟨le_refl _, by simp⟩
  · subst hch
    obtain ⟨hid₁, -, hnid₁, -⟩ :=
      breakupChild_elim env g a _ i nid c₁ i₁ nid₁ hc₁
    obtain ⟨hid₂, -, hnid₂, -⟩ :=
      breakupChild_elim env g a _ i₁ nid₁ c₂ i' nid' hc₂
    refine ⟨by omega, ?_⟩
    intro c hc
    rcases List.mem_cons.mp hc with hc' | hc'
    · subst hc'; omega
    · obtain rfl := List.mem_singleton.mp hc'; omega

/-- Case analysis on one successful asteroid scan: either the state is
unchanged (no eligible overlap), or exactly one eligible overlapping
asteroid of the scanned list was destroyed, the bullet consumed, and that
asteroid's breakup output appended. -/
lemma scanAsteroids_ok_cases (env : MathEnv) (g : RandStream) (b : Bullet) :
    ∀ (rest : List Asteroid) (st st' : CollisionResult × ℕ × ℕ),
    scanAsteroids env g b rest st = .ok st' →
    st' = st ∨
    ∃ a, a ∈ rest ∧ a.id ∉ st.1.asteroidsToRemove ∧
      circlesOverlap b.toCircle a.toCircle = true ∧
      ∃ p children score,
        Asteroid.breakup env g a st.2.1 st.2.2 =
          .ok (p, children, score, st'.2.1, st'.2.2) ∧
        st'.1.bulletsToRemove = st.1.bulletsToRemove ++ [b.id] ∧
        st'.1.asteroidsToRemove = st.1.asteroidsToRemove ++ [a.id] ∧
        st'.1.newAsteroids = st.1.newAsteroids ++ children ∧
        st'.1.scoreDelta = st.1.scoreDelta + score := by
  intro rest
  induction rest with
  | nil =>
    intro st st' h
    exact Or.inl (Except.ok.inj h).symm
  | cons a rest ih =>
    intro st st' h
    simp only [scanAsteroids] at h
    by_cases hmem : a.id ∈ st.1.asteroidsToRemove
    · rw [if_pos hmem] at h
      rcases ih st st' h with h' | ⟨a', ha', hrest⟩
      · exact Or.inl h'
      · exact Or.inr ⟨a', List.mem_cons_of_mem _ ha', hrest⟩
    · rw [if_neg hmem] at h
      by_cases hov : circlesOverlap b.toCircle a.toCircle = true
      · rw [if_pos hov] at h
        rcases hbr : Asteroid.breakup env g a st.2.1 st.2.2 with e
          | ⟨p, children, score, i', nid'⟩
        · rw [hbr] at h
          simp at h
        · rw [hbr] at h
          dsimp only at h
          obtain rfl := (Except.ok.inj h)
          exact Or.inr ⟨a, List.mem_cons_self _ _, hmem, hov,
            p, children, score, hbr, rfl, rfl, rfl, rfl⟩
      · rw [if_neg hov] at h
        rcases ih st st' h with h' | ⟨a', ha', hrest⟩
        · exact Or.inl h'
        · exact Or.inr ⟨a', List.mem_cons_of_mem _ ha', hrest⟩

/-- Invariants tracked along the bullet loop: the id counter never
decreases; every destroyed id was a scanned input asteroid's id; every
collected child was either already collected or allocated at or above the
incoming counter; every consumed bullet id belongs to a processed bullet
that overlaps some input asteroid. -/
lemma processBullets_track (env : MathEnv) (g : RandStream)
    (asteroids : List Asteroid) :
    ∀ (bs : List Bullet) (st st' : CollisionResult × ℕ × ℕ),
    processBullets env g asteroids bs st = .ok st' →
    st.2.2 ≤ st'.2.2 ∧
    (∀ aid ∈ st'.1.asteroidsToRemove,
      aid ∈ st.1.asteroidsToRemove ∨ aid ∈ asteroids.map (·.id)) ∧
    (∀ c ∈ st'.1.newAsteroids,
      c ∈ st.1.newAsteroids ∨ st.2.2 ≤ c.id) ∧
    (∀ bid ∈ st'.1.bulletsToRemove,
      bid ∈ st.1.bulletsToRemove ∨
      ∃ b, b ∈ bs ∧ b.id = bid ∧
        ∃ a, a ∈ asteroids ∧ circlesOverlap b.toCircle a.toCircle = true) := by
  intro bs
  induction bs with
  | nil =>
    intro st st' h
    obtain rfl := (Except.ok.inj h)
    exact ⟨le_refl _, fun aid ha => Or.inl ha, fun c hc => Or.inl hc,
      fun bid hb => Or.inl hb⟩
  | cons b rest ih =>
    intro st st' h
    simp only [processBullets] at h
    by_cases hb : b.id ∈ st.1.bulletsToRemove
    · rw [if_pos hb] at h
      obtain ⟨h1, h2, h3, h4⟩ := ih st st' h
      refine ⟨h1, h2, h3, fun bid hbid => ?_⟩
      rcases h4 bid hbid with h' | ⟨b', hb', hrest⟩
      · exact Or.inl h'
      · exact Or.inr ⟨b', List.mem_cons_of_mem _ hb', hrest⟩
    · rw [if_neg hb] at h
      rcases hscan : scanAsteroids env g b asteroids st with e | st₁
      · rw [hscan] at h
        simp at h
      · rw [hscan] at h
        dsimp only at h
        obtain ⟨h1, h2, h3, h4⟩ := ih st₁ st' h
        rcases scanAsteroids_ok_cases env g b asteroids st st₁ hscan with heq
          | ⟨a, ha, hmem, hov, p, children, score, hbr, hb', ha', hn', -⟩
        · subst heq
          refine ⟨h1, h2, h3, fun bid hbid => ?_⟩
          rcases h4 bid hbid with h' | ⟨b', hb'', hrest⟩
          · exact Or.inl h'
          · exact Or.inr ⟨b', List.mem_cons_of_mem _ hb'', hrest⟩
        · obtain ⟨hnidmono, hchild⟩ :=
            breakup_nid_mono env g a st.2.1 st.2.2 p children score
              st₁.2.1 st₁.2.2 hbr
          refine ⟨le_trans hnidmono h1, ?_, ?_, ?_⟩
          · intro aid haid
            rcases h2 aid haid with h' | h'
            · rw [ha'] at h'
              rcases List.mem_append.mp h' with h'' | h''
              · exact Or.inl h''
              · obtain rfl := List.mem_singleton.mp h''
                exact Or.inr (List.mem_map.mpr ⟨a, ha, rfl⟩)
            · exact Or.inr h'
          · intro c hc
            rcases h3 c hc with h' | h'
            · rw [hn'] at h'
              rcases List.mem_append.mp h' with h'' | h''
              · exact Or.inl h''
              · exact Or.inr (hchild c h'').1
            · exact Or.inr (le_trans hnidmono h')
          · intro bid hbid
            rcases h4 bid hbid with h' | ⟨b', hb'', hrest⟩
            · rw [hb'] at h'
              rcases List.mem_append.mp h' with h'' | h''
              · exact Or.inl h''
              · obtain rfl := List.mem_singleton.mp h''
                exact Or.inr ⟨b, List.mem_cons_self _ _, rfl, a, ha, hov⟩
            · exact Or.inr ⟨b', List.mem_cons_of_mem _ hb'', hrest⟩

/-- Cardinality invariants along the bullet loop: at most one consumption
per processed bullet, consumptions and destructions in lockstep, and both
id lists duplicate-free. -/
lemma processBullets_card (env : MathEnv) (g : RandStream)
    (asteroids : List Asteroid) :
    ∀ (bs : List Bullet) (st st' : CollisionResult × ℕ × ℕ),
    processBullets env g asteroids bs st = .ok st' →
    st'.1.bulletsToRemove.length ≤ st.1.bulletsToRemove.length + bs.length ∧
    ((st.1.bulletsToRemove.length = st.1.asteroidsToRemove.length ∧
      st.1.bulletsToRemove.Nodup ∧ st.1.asteroidsToRemove.Nodup) →
     (st'.1.bulletsToRemove.length = st'.1.asteroidsToRemove.length ∧
      st'.1.bulletsToRemove.Nodup ∧ st'.1.asteroidsToRemove.Nodup)) := by
  intro bs
  induction bs with
  | nil =>
    intro st st' h
    obtain rfl := (Except.ok.inj h)
    exact ⟨by simp, fun hp => hp⟩
  | cons b rest ih =>
    intro st st' h
    simp only [processBullets] at h
    by_cases hb : b.id ∈ st.1.bulletsToRemove
    · rw [if_pos hb] at h
      obtain ⟨h1, h2⟩ := ih st st' h
      exact ⟨by simp only [List.length_cons]; omega, h2⟩
    · rw [if_neg hb] at h
      rcases hscan : scanAsteroids env g b asteroids st with e | st₁
      · rw [hscan] at h
        simp at h
      · rw [hscan] at h
        dsimp only at h
        obtain ⟨h1, h2⟩ := ih st₁ st' h
        rcases scanAsteroids_ok_cases env g b asteroids st st₁ hscan with heq
          | ⟨a, ha, hmem, hov, p, children, score, hbr, hb', ha', hn', -⟩
        · subst heq
          exact ⟨by simp only [List.length_cons]; omega, h2⟩
        · have hlb : st₁.1.bulletsToRemove.length =
              st.1.bulletsToRemove.length + 1 := by
            rw [hb']; simp
          have hla : st₁.1.asteroidsToRemove.length =
              st.1.asteroidsToRemove.length + 1 := by
            rw [ha']; simp
          refine ⟨by simp only [List.length_cons]; omega, fun hp => ?_⟩
          obtain ⟨hpl, hpb, hpa⟩ := hp
          refine h2 ⟨by omega, ?_, ?_⟩
          · rw [hb']
            simp [List.nodup_append, hpb, hb]
          · rw [ha']
            simp [List.nodup_append, hpa, hmem]

/-! ### Claim theorems -/

/-- C9: for all circles `a` and `b` (degenerate radius 0 included),
`circlesOverlap a b` returns true iff the squared distance between centres
is at most the squared sum of radii; circles exactly `ra+rb` apart overlap
(tangency inclusive) and circles strictly farther apart do not. -/
theorem circlesOverlap_iff_sq (a b : Circle) :
    (circlesOverlap a b = true ↔
      (a.x - b.x) ^ 2 + (a.y - b.y) ^ 2 ≤ (a.radius + b.radius) ^ 2) ∧
    ((a.x - b.x) ^ 2 + (a.y - b.y) ^ 2 = (a.radius + b.radius) ^ 2 →
      circlesOverlap a b = true) ∧
    ((a.radius + b.radius) ^ 2 < (a.x - b.x) ^ 2 + (a.y - b.y) ^ 2 →
      circlesOverlap a b = false) := by
  have key : circlesOverlap a b = true ↔
      (a.x - b.x) ^ 2 + (a.y - b.y) ^ 2 ≤ (a.radius + b.radius) ^ 2 := by
    unfold circlesOverlap
    rw [decide_eq_true_eq, pow_two, pow_two, pow_two]
  refine ⟨key, fun h => key.mpr h.le, fun h => ?_⟩
  cases hb : circlesOverlap a b
  · rfl
  · exact absurd (key.mp hb) (not_le.mpr h)

/-- Witness for C9: circles at distance exactly `ra+rb` overlap; at a
strictly larger distance they do not. -/
theorem circlesOverlap_iff_sq_witness :
    circlesOverlap ⟨0, 0, 2⟩ ⟨5, 0, 3⟩ = true ∧
    circlesOverlap ⟨0, 0, 2⟩ ⟨6, 0, 3⟩ = false :=
  ⟨(circlesOverlap_iff_sq ⟨0, 0, 2⟩ ⟨5, 0, 3⟩).2.1 (by norm_num),
   (circlesOverlap_iff_sq ⟨0, 0, 2⟩ ⟨6, 0, 3⟩).2.2 (by norm_num)⟩

/-- C4: constructing an asteroid fails with the invalid-tier error exactly
when the tier is not in {1,2,3}; on a valid tier construction succeeds and
the radius is the table value {1→40, 2→20, 3→10}. -/
theorem asteroidNew_tier_validation (env : MathEnv) (g : RandStream)
    (opts : AsteroidOpts) (i nid : ℕ) :
    ((opts.tier = 1 ∨ opts.tier = 2 ∨ opts.tier = 3) →
      ∃ a i', Asteroid.new env g opts i nid = .ok (a, i', nid + 1) ∧
        a.tier = opts.tier ∧
        a.radius = (if opts.tier = 1 then 40 else if opts.tier = 2 then 20
          else 10)) ∧
    (¬(opts.tier = 1 ∨ opts.tier = 2 ∨ opts.tier = 3) →
      ∃ msg, Asteroid.new env g opts i nid = .error msg) := by
  constructor
  · intro h
    unfold Asteroid.new
    rw [if_neg (by omega)]
    refine ⟨_, _, rfl, rfl, ?_⟩
    rcases h with h | h | h <;> simp [TIER_RADII, h]
  · intro h
    unfold Asteroid.new
    rw [if_pos (by omega)]
    exact ⟨_, rfl⟩

/-- Witness for C4: tier 1 constructs with radius 40; tier 0 fails. -/
theorem asteroidNew_tier_validation_witness :
    (∃ a i',
      Asteroid.new wEnv wG ⟨1, 0, 0, 0, 0, none, none, none⟩ 0 5 =
        .ok (a, i', 6) ∧ a.tier = 1 ∧
      a.radius = (if (1 : ℤ) = 1 then 40 else if (1 : ℤ) = 2 then 20
        else 10)) ∧
    (∃ msg, Asteroid.new wEnv wG ⟨0, 0, 0, 0, 0, none, none, none⟩ 0 5 =
        .error msg) :=
  ⟨(asteroidNew_tier_validation wEnv wG ⟨1, 0, 0, 0, 0, none, none, none⟩
      0 5).1 (Or.inl rfl),
   (asteroidNew_tier_validation wEnv wG ⟨0, 0, 0, 0, 0, none, none, none⟩
      0 5).2 (by decide)⟩

/-- C5: `breakup` on tier 3 returns no children and score 100; on tier 2,
exactly two tier-3 children and score 50; on tier 1, exactly two tier-2
children and score 20. -/
theorem breakup_tier_table (env : MathEnv) (g : RandStream) (a : Asteroid)
    (i nid : ℕ) :
    (a.tier = 3 → Asteroid.breakup env g a i nid = .ok (a, [], 100, i, nid)) ∧
    (a.tier = 2 → ∃ c₁ c₂ i' nid',
      Asteroid.breakup env g a i nid = .ok (a, [c₁, c₂], 50, i', nid') ∧
      c₁.tier = 3 ∧ c₂.tier = 3) ∧
    (a.tier = 1 → ∃ c₁ c₂ i' nid',
      Asteroid.breakup env g a i nid = .ok (a, [c₁, c₂], 20, i', nid') ∧
      c₁.tier = 2 ∧ c₂.tier = 2) := by
  refine ⟨fun h => ?_, fun h => ?_, fun h => ?_⟩
  · unfold Asteroid.breakup
    rw [if_pos h]
    simp [ASTEROID_SCORES, h]
  · obtain ⟨c₁, c₂, i', nid', heq, ht₁, ht₂⟩ :=
      breakup_ok_of_small_tier env g a i nid (Or.inr h)
    rw [h] at ht₁ ht₂
    refine ⟨c₁, c₂, i', nid', ?_, by omega, by omega⟩
    rw [heq]
    simp [ASTEROID_SCORES, h]
  · obtain ⟨c₁, c₂, i', nid', heq, ht₁, ht₂⟩ :=
      breakup_ok_of_small_tier env g a i nid (Or.inl h)
    rw [h] at ht₁ ht₂
    refine ⟨c₁, c₂, i', nid', ?_, by omega, by omega⟩
    rw [heq]
    simp [ASTEROID_SCORES, h]

/-- Witness for C5: a concrete tier-2 asteroid breaks into two tier-3
children with score 50. -/
theorem breakup_tier_table_witness :
    ∃ c₁ c₂ i' nid',
      Asteroid.breakup wEnv wG wAst2 0 50 = .ok (wAst2, [c₁, c₂], 50, i', nid') ∧
      c₁.tier = 3 ∧ c₂.tier = 3 :=
  (breakup_tier_table wEnv wG wAst2 0 50).2.1 rfl

/-- C8: `breakup` leaves every field of the entity itself unchanged — the
state it reports for the entity after the call agrees with the input on
x, y, vx, vy, tier, radius, rotation, angularVelocity and shape. -/
theorem breakup_preserves_parent (env : MathEnv) (g : RandStream)
    (a : Asteroid) (i nid : ℕ) :
    ∀ p children score i' nid',
      Asteroid.breakup env g a i nid = .ok (p, children, score, i', nid') →
      p.x = a.x ∧ p.y = a.y ∧ p.vx = a.vx ∧ p.vy = a.vy ∧ p.tier = a.tier ∧
      p.radius = a.radius ∧ p.rotation = a.rotation ∧
      p.angularVelocity = a.angularVelocity ∧ p.shape = a.shape := by
  intro p children score i' nid' h
  obtain ⟨hp, -, -⟩ := breakup_cases env g a i nid p children score i' nid' h
  subst hp
  exact ⟨rfl, rfl, rfl, rfl, rfl, rfl, rfl, rfl, rfl⟩

/-- Witness for C8: instantiated on a concrete tier-3 breakup. -/
theorem breakup_preserves_parent_witness :
    ∃ p children score i' nid',
      Asteroid.breakup wEnv wG wAst3 0 9 = .ok (p, children, score, i', nid') ∧
      (p.x = wAst3.x ∧ p.y = wAst3.y ∧ p.vx = wAst3.vx ∧ p.vy = wAst3.vy ∧
       p.tier = wAst3.tier ∧ p.radius = wAst3.radius ∧
       p.rotation = wAst3.rotation ∧
       p.angularVelocity = wAst3.angularVelocity ∧ p.shape = wAst3.shape) :=
  ⟨wAst3, [], 100, 0, 9, rfl,
   breakup_preserves_parent wEnv wG wAst3 0 9 wAst3 [] 100 0 9 rfl⟩

/-- C10: on an entity whose tier is in {1,2,3}, `breakup` never raises the
constructor's invalid-tier error: every child it builds has the parent's
tier plus one, which lies in {2,3}, so construction succeeds. -/
theorem breakup_no_error_on_valid (env : MathEnv) (g : RandStream)
    (a : Asteroid) (i nid : ℕ)
    (h : a.tier = 1 ∨ a.tier = 2 ∨ a.tier = 3) :
    ∃ p children score i' nid',
      Asteroid.breakup env g a i nid = .ok (p, children, score, i', nid') ∧
      ∀ c ∈ children, c.tier = a.tier + 1 ∧ (c.tier = 2 ∨ c.tier = 3) := by
  rcases h with h | h | h
  · obtain ⟨c₁, c₂, i', nid', heq, ht₁, ht₂⟩ :=
      breakup_ok_of_small_tier env g a i nid (Or.inl h)
    refine ⟨a, [c₁, c₂], _, i', nid', heq, ?_⟩
    intro c hc
    rcases List.mem_cons.mp hc with hc | hc
    · subst hc; exact ⟨by omega, by omega⟩
    · obtain rfl := List.mem_singleton.mp hc; exact ⟨by omega, by omega⟩
  · obtain ⟨c₁, c₂, i', nid', heq, ht₁, ht₂⟩ :=
      breakup_ok_of_small_tier env g a i nid (Or.inr h)
    refine ⟨a, [c₁, c₂], _, i', nid', heq, ?_⟩
    intro c hc
    rcases List.mem_cons.mp hc with hc | hc
    · subst hc; exact ⟨by omega, by omega⟩
    · obtain rfl := List.mem_singleton.mp hc; exact ⟨by omega, by omega⟩
  · refine ⟨a, [], ASTEROID_SCORES a.tier, i, nid, ?_, by simp⟩
    unfold Asteroid.breakup
    rw [if_pos h]

/-- C1: the resolver visits projectiles in input order; a projectile not
yet consumed is paired with the first entity in input order that overlaps
it and is not already marked destroyed — that entity is destroyed, the
projectile consumed, and no further entities are tested for it.  Stated as
equality with the spec-modelled reference resolver (`resolveSpec`), whose
per-projectile step selects via `List.find?` and updates at most once. -/
theorem resolver_first_hit_in_order (env : MathEnv) (g : RandStream)
    (bullets : List Bullet) (asteroids : List Asteroid) (i nid : ℕ) :
    processBulletAsteroidCollisions env g bullets asteroids i nid =
      resolveSpec env g bullets asteroids i nid := by
  unfold processBulletAsteroidCollisions resolveSpec
  exact processBullets_eq_foldlM env g asteroids bullets _

/-- C7: when `cos`/`sin` satisfy the Pythagorean identity and the random
draws lie in `[0,1)`, every child of a tier-1 or tier-2 breakup has speed
equal to `s` times the parent's speed for some scale `s ∈ [1.2, 1.5)` —
the velocity is a norm-preserving rotation scaled by `s`. -/
theorem breakup_child_speed_scales (env : MathEnv) (g : RandStream)
    (a : Asteroid) (i nid : ℕ)
    (htrig : ∀ θ : ℚ, env.cos θ ^ 2 + env.sin θ ^ 2 = 1)
    (hg : ∀ n : ℕ, 0 ≤ g n ∧ g n < 1)
    (htier : a.tier = 1 ∨ a.tier = 2) :
    ∀ p children score i' nid',
      Asteroid.breakup env g a i nid = .ok (p, children, score, i', nid') →
      ∀ c ∈ children, ∃ s : ℚ, 1.2 ≤ s ∧ s < 1.5 ∧
        Real.sqrt ((c.vx : ℝ) ^ 2 + (c.vy : ℝ) ^ 2) =
          (s : ℝ) * Real.sqrt ((a.vx : ℝ) ^ 2 + (a.vy : ℝ) ^ 2) := by
  intro p children score i' nid' h c hc
  obtain ⟨-, -, hcase⟩ := breakup_cases env g a i nid p children score i' nid' h
  rcases hcase with ⟨h3, -⟩ | ⟨-, c₁, c₂, i₁, nid₁, hc₁, hc₂, hch⟩
  · omega
  · subst hch
    have hsq : ∃ s : ℚ, 1.2 ≤ s ∧ s < 1.5 ∧
        c.vx ^ 2 + c.vy ^ 2 = s ^ 2 * (a.vx ^ 2 + a.vy ^ 2) := by
      rcases List.mem_cons.mp hc with hc' | hc'
      · subst hc'
        exact breakupChild_speed env g a _ i nid c i₁ nid₁ htrig hg hc₁
      · obtain rfl := List.mem_singleton.mp hc'
        exact breakupChild_speed env g a _ i₁ nid₁ c i' nid' htrig hg hc₂
    obtain ⟨s, hs1, hs2, hsq⟩ := hsq
    refine ⟨s, hs1, hs2, ?_⟩
    have hR : ((c.vx : ℝ) ^ 2 + (c.vy : ℝ) ^ 2) =
        ((s : ℝ)) ^ 2 * ((a.vx : ℝ) ^ 2 + (a.vy : ℝ) ^ 2) := by
      exact_mod_cast congrArg (fun q : ℚ => (q : ℝ)) hsq
    have hs0 : (0 : ℝ) ≤ (s : ℝ) := by
      have : (0 : ℚ) ≤ s := by linarith
      exact_mod_cast this
    rw [hR, Real.sqrt_mul (sq_nonneg _), Real.sqrt_sq hs0]

/-- Witness for C7: instantiated on a concrete tier-1 asteroid with a
Pythagorean environment and in-range draws. -/
theorem breakup_child_speed_scales_witness :
    (∀ θ : ℚ, wEnv.cos θ ^ 2 + wEnv.sin θ ^ 2 = 1) ∧
    (∀ n : ℕ, 0 ≤ wG n ∧ wG n < 1) ∧
    (∀ p children score i' nid',
      Asteroid.breakup wEnv wG wAst1 0 7 = .ok (p, children, score, i', nid') →
      ∀ c ∈ children, ∃ s : ℚ, 1.2 ≤ s ∧ s < 1.5 ∧
        Real.sqrt ((c.vx : ℝ) ^ 2 + (c.vy : ℝ) ^ 2) =
          (s : ℝ) * Real.sqrt ((wAst1.vx : ℝ) ^ 2 + (wAst1.vy : ℝ) ^ 2)) :=
  ⟨fun θ => by simp [wEnv], fun n => by norm_num [wG],
   breakup_child_speed_scales wEnv wG wAst1 0 7 (fun θ => by simp [wEnv])
     (fun n => by norm_num [wG]) (Or.inl rfl)⟩

/-- C3: the application step filters the projectiles (order-preserving) to
exclude exactly the consumed set, filters the entities (order-preserving)
to exclude exactly the destroyed set with the spawned children appended at
the end in generation order, and passes `scoreDelta` through unchanged.
(The returned containers are fresh values of the embedding; inputs are
immutable.) -/
theorem applyCollisionResults_filters (bullets : List Bullet)
    (asteroids : List Asteroid) (r : CollisionResult) :
    (applyCollisionResults bullets asteroids r).scoreDelta = r.scoreDelta ∧
    List.Sublist (applyCollisionResults bullets asteroids r).bullets bullets ∧
    (∀ b, b ∈ (applyCollisionResults bullets asteroids r).bullets ↔
      b ∈ bullets ∧ b.id ∉ r.bulletsToRemove) ∧
    ∃ surv,
      (applyCollisionResults bullets asteroids r).asteroids =
        surv ++ r.newAsteroids ∧
      List.Sublist surv asteroids ∧
      (∀ a, a ∈ surv ↔ a ∈ asteroids ∧ a.id ∉ r.asteroidsToRemove) := by
  refine ⟨rfl, ?_, ?_, ?_⟩
  · exact List.filter_sublist bullets
  · intro b
    simp [applyCollisionResults]
  · refine ⟨asteroids.filter fun a => decide (a.id ∉ r.asteroidsToRemove),
      rfl, List.filter_sublist asteroids, ?_⟩
    intro a
    simp

/-- C2: when the input entities' ids all lie below the fresh-id counter
(as JS object identity guarantees for distinct objects), children spawned
inside a resolver call are never tested against any projectile of that
call: every destroyed id is an input entity's id, no spawned child's id is
an input id or a destroyed id, and every consumed projectile was consumed
by an overlap with an input entity. -/
theorem resolver_children_immune (env : MathEnv) (g : RandStream)
    (bullets : List Bullet) (asteroids : List Asteroid) (i nid : ℕ)
    (hfresh : ∀ a ∈ asteroids, a.id < nid) :
    ∀ r i' nid',
      processBulletAsteroidCollisions env g bullets asteroids i nid =
        .ok (r, i', nid') →
      (∀ aid ∈ r.asteroidsToRemove, aid ∈ asteroids.map (·.id)) ∧
      (∀ c ∈ r.newAsteroids,
        c.id ∉ asteroids.map (·.id) ∧ c.id ∉ r.asteroidsToRemove) ∧
      (∀ bid ∈ r.bulletsToRemove, ∃ b, b ∈ bullets ∧ b.id = bid ∧
        ∃ a, a ∈ asteroids ∧ circlesOverlap b.toCircle a.toCircle = true) := by
  intro r i' nid' h
  obtain ⟨-, h2, h3, h4⟩ := processBullets_track env g asteroids bullets _ _ h
  have hdes : ∀ aid ∈ r.asteroidsToRemove, aid ∈ asteroids.map (·.id) :=
    fun aid ha => (h2 aid ha).resolve_left (by simp)
  refine ⟨hdes, ?_, fun bid hbid => (h4 bid hbid).resolve_left (by simp)⟩
  intro c hc
  have hcid : nid ≤ c.id := (h3 c hc).resolve_left (by simp)
  have hnot : c.id ∉ asteroids.map (·.id) := by
    intro hmem
    obtain ⟨a, ha, haeq⟩ := List.mem_map.mp hmem
    have := hfresh a ha
    omega
  exact ⟨hnot, fun hmem => hnot (hdes _ hmem)⟩

/-- Witness for C2: one input entity with id below the counter, no
projectiles; the resolver returns the empty result. -/
theorem resolver_children_immune_witness :
    (∀ a ∈ [wAst3], a.id < 9) ∧
    ((∀ aid ∈ wEmptyRes.asteroidsToRemove,
        aid ∈ [wAst3].map (·.id)) ∧
     (∀ c ∈ wEmptyRes.newAsteroids,
        c.id ∉ [wAst3].map (·.id) ∧
        c.id ∉ wEmptyRes.asteroidsToRemove) ∧
     (∀ bid ∈ wEmptyRes.bulletsToRemove,
        ∃ b, b ∈ ([] : List Bullet) ∧ b.id = bid ∧
        ∃ a, a ∈ [wAst3] ∧ circlesOverlap b.toCircle a.toCircle = true)) :=
  have hfresh : ∀ a ∈ [wAst3], a.id < 9 := by
    intro a ha
    obtain rfl := List.mem_singleton.mp ha
    decide
  ⟨hfresh,
   resolver_children_immune wEnv wG [] [wAst3] 0 9 hfresh
     wEmptyRes 0 9 rfl⟩

/-- C6: the number of consumed projectiles is at most the number of input
projectiles, and the consumed and destroyed sets have equal cardinality
(both duplicate-free): consumption is one-to-one with destruction. -/
theorem resolver_consumption_one_to_one (env : MathEnv) (g : RandStream)
    (bullets : List Bullet) (asteroids : List Asteroid) (i nid : ℕ) :
    ∀ r i' nid',
      processBulletAsteroidCollisions env g bullets asteroids i nid =
        .ok (r, i', nid') →
      r.bulletsToRemove.length ≤ bullets.length ∧
      r.bulletsToRemove.length = r.asteroidsToRemove.length ∧
      r.bulletsToRemove.Nodup ∧ r.asteroidsToRemove.Nodup := by
  intro r i' nid' h
  obtain ⟨h1, h2⟩ := processBullets_card env g asteroids bullets _ _ h
  obtain ⟨hl, hb, ha⟩ := h2 ⟨rfl, List.nodup_nil, List.nodup_nil⟩
  exact ⟨by simpa using h1, hl, hb, ha⟩

/-- Witness for C6: the resolver applied to one projectile-free call. -/
theorem resolver_consumption_one_to_one_witness :
    wEmptyRes.bulletsToRemove.length ≤
      ([] : List Bullet).length ∧
    wEmptyRes.bulletsToRemove.length =
      wEmptyRes.asteroidsToRemove.length ∧
    wEmptyRes.bulletsToRemove.Nodup ∧
    wEmptyRes.asteroidsToRemove.Nodup :=
  resolver_consumption_one_to_one wEnv wG [] [wAst3] 0 9
    wEmptyRes 0 9 rfl

/-- Witness for C10: a concrete tier-1 breakup succeeds with tier-2
children. -/
theorem breakup_no_error_on_valid_witness :
    ∃ p children score i' nid',
      Asteroid.breakup wEnv wG wAst1 0 7 = .ok (p, children, score, i', nid') ∧
      ∀ c ∈ children, c.tier = wAst1.tier + 1 ∧ (c.tier = 2 ∨ c.tier = 3) :=
  breakup_no_error_on_valid wEnv wG wAst1 0 7 (Or.inl rfl)

end Astroids
